import Mathlib

set_option maxRecDepth 100000

/-!
Verification of the commission calculation engine of the
Commission-calculator repository
(`backend/app/services/commission_service.py`).

The Python engine mixes exact decimal arithmetic (`decimal.Decimal` with
the default context: 28 significant digits, ROUND_HALF_EVEN) with IEEE-754
binary64 (`float`) values.  The embedding below works over `ℚ` and models
every rounding step explicitly:

* `decimalCtx`   — rounding to 28 significant decimal digits, half-even
                   (the default `decimal` context applied by `/` and `*`);
* `floatRound`   — rounding to the nearest binary64 value (53 significant
                   bits, ties to even), i.e. the effect of `float(...)`;
* `pyRound2`     — Python's `round(x, 2)` on a float: correct rounding of
                   the exact value to 2 fractional digits, ties to even;
* `quantize2HalfUp` — `Decimal.quantize(Decimal("0.01"), ROUND_HALF_UP)`:
                   rounding to 2 fractional digits, ties away from zero.

Conventions of the embedding:

* A rational argument standing for a Python `float` denotes the value
  `Decimal(str(x))`, i.e. the shortest decimal literal that round-trips
  to the stored binary64 value.  For currency inputs (at most 2 fractional
  digits, below 10^12) this is exactly the decimal amount.  The actual
  binary64 value of such a stand-in `q` is `floatRound q`.
* `Decimal(str(a)) <= Decimal(str(b))` for floats `a`, `b` orders exactly
  as the binary64 values themselves do (shortest round-tripping literals
  of distinct floats lie in disjoint ordered rounding regions), so the
  comparison in `_is_eligible` is modelled directly on the binary64
  values.
* Subnormal underflow and overflow of binary64 are outside the magnitude
  range of every value handled here, so `floatRound` models `float`
  conversion exactly on this domain.
-/

/-- Nearest integer, ties to even.  Rounding mode shared by
`float(Decimal)` conversion, the default `decimal` context and Python's
builtin `round`. -/
def rheInt (x : ℚ) : ℤ :=
  if x - Int.floor x < 1/2 then Int.floor x
  else if 1/2 < x - Int.floor x then Int.floor x + 1
  else if Int.floor x % 2 = 0 then Int.floor x else Int.floor x + 1

/-- Nearest integer, ties away from zero (`ROUND_HALF_UP`). -/
def rhalfUpInt (x : ℚ) : ℤ :=
  if 0 ≤ x then Int.floor (x + 1/2) else - Int.floor (-x + 1/2)

/-- Round `x` to the grid of integer multiples of `s`, ties to even. -/
def gridRound (s x : ℚ) : ℚ :=
  (rheInt (x / s) : ℚ) * s

/-- Fuel-driven base-`b` logarithm on naturals: largest `k` with
`b ^ k ≤ n` (for `2 ≤ b`, `1 ≤ n < b ^ fuel`). -/
def nlogF (b : ℕ) : ℕ → ℕ → ℕ
  | 0, _ => 0
  | f + 1, n => if n < b then 0 else nlogF b f (n / b) + 1

/-- Fuel bound for `nlogF`; every magnitude appearing in this development
is far below `2 ^ 64`. -/
def logFuel : ℕ := 64

/-- For `0 < x`, the integer `e` with `b ^ e ≤ x < b ^ (e + 1)`
(meaningful when `x` and `x⁻¹` are below `b ^ logFuel`). -/
def qlogb (b : ℕ) (x : ℚ) : ℤ :=
  if 1 ≤ x then (nlogF b logFuel (Int.floor x).toNat : ℤ)
  else if x * (b : ℚ) ^ nlogF b logFuel (Int.floor x⁻¹).toNat = 1 then
    -(nlogF b logFuel (Int.floor x⁻¹).toNat : ℤ)
  else -(nlogF b logFuel (Int.floor x⁻¹).toNat : ℤ) - 1

/-- One step of the default `decimal` context on a positive value:
round to 28 significant digits, half-even. -/
def decimalCtxPos (x : ℚ) : ℚ :=
  gridRound ((10 : ℚ) ^ (qlogb 10 x - 27)) x

/-- The default `decimal` context (`getcontext().prec == 28`,
`ROUND_HALF_EVEN`) applied to the result of an arithmetic operation. -/
def decimalCtx (x : ℚ) : ℚ :=
  if x = 0 then 0
  else if 0 < x then decimalCtxPos x
  else - decimalCtxPos (-x)

/-- Rounding of a positive rational to the nearest binary64 value
(53 significant bits, ties to even); exact on the normal range. -/
def floatRoundPos (x : ℚ) : ℚ :=
  gridRound ((2 : ℚ) ^ (qlogb 2 x - 52)) x

/-- `float(...)` conversion: nearest binary64 value, ties to even. -/
def floatRound (x : ℚ) : ℚ :=
  if x = 0 then 0
  else if 0 < x then floatRoundPos x
  else - floatRoundPos (-x)

/-- Python's `round(x, 2)` on the exact value of a float: nearest multiple
of `1/100`, ties to even. -/
def pyRound2 (x : ℚ) : ℚ :=
  (rheInt (x * 100) : ℚ) / 100

/-- `Decimal.quantize(Decimal("0.01"), rounding=ROUND_HALF_UP)`: nearest
multiple of `1/100`, ties away from zero. -/
def quantize2HalfUp (x : ℚ) : ℚ :=
  (rhalfUpInt (x * 100) : ℚ) / 100

/-! ## The data model of the service (`commission_service.py`,
`exceptions.py`) -/

/-- The two domain exception classes that the engine can raise
(`app.core.exceptions`).  The spec's taxonomy names the construction
failure `ConfigurationError`; the class the code raises there is
`BusinessRuleViolation`.  `details` is the dict payload, modelled as an
association list of field name and offending value. -/
inductive CalcError where
  | validationError (message : String) (details : List (String × ℚ))
  | businessRuleViolation (message : String) (details : List (String × ℚ))
deriving DecidableEq

/-- Immutable result record (`CommissionResult` NamedTuple). -/
structure CommissionResult where
  commission : ℚ
  eligible : Bool
  percentage_of_target : ℚ
deriving DecidableEq

/-- The engine's immutable configuration
(`CommissionCalculatorService.__init__` stores these two fields). -/
structure CommissionCalculatorService where
  commission_rate : ℚ
  eligibility_threshold : ℚ
deriving DecidableEq

/-- `CommissionCalculatorService._validate_configuration`. -/
def validate_configuration (commission_rate eligibility_threshold : ℚ) :
    Except CalcError Unit :=
  if ¬ (0 ≤ commission_rate ∧ commission_rate ≤ 1) then
    Except.error (CalcError.businessRuleViolation
      "commission_rate must be between 0 and 1"
      [("commission_rate", commission_rate)])
  else if ¬ (0 < eligibility_threshold ∧ eligibility_threshold ≤ 1) then
    Except.error (CalcError.businessRuleViolation
      "eligibility_threshold must be between 0 and 1"
      [("eligibility_threshold", eligibility_threshold)])
  else
    Except.ok ()

/-- `CommissionCalculatorService.__init__`: validate the configuration,
then store both values unchanged. -/
def CommissionCalculatorService.init (commission_rate eligibility_threshold : ℚ) :
    Except CalcError CommissionCalculatorService :=
  match validate_configuration commission_rate eligibility_threshold with
  | Except.error e => Except.error e
  | Except.ok _ => Except.ok ⟨commission_rate, eligibility_threshold⟩

/-- `CommissionCalculatorService._validate_inputs`. -/
def validate_inputs (sales_amount target_amount : ℚ) :
    Except CalcError Unit :=
  if sales_amount < 0 then
    Except.error (CalcError.validationError
      "sales_amount cannot be negative"
      [("sales_amount", sales_amount)])
  else if target_amount ≤ 0 then
    Except.error (CalcError.validationError
      "target_amount must be greater than zero"
      [("target_amount", target_amount)])
  else
    Except.ok ()

/-- `CommissionCalculatorService._calculate_percentage`:
`float(Decimal(str(sales)) / Decimal(str(target)) * Decimal("100"))`.
Division and multiplication each apply the default context
(28 significant digits, half-even); the final `float(...)` rounds to
binary64. -/
def calculate_percentage (sales_amount target_amount : ℚ) : ℚ :=
  floatRound (decimalCtx (decimalCtx (sales_amount / target_amount) * 100))

/-- `CommissionCalculatorService._is_eligible`:
`Decimal(str(pct)) >= Decimal(str(self.eligibility_threshold * 100))`.
The threshold multiplication is binary64 arithmetic on the stored float
(`floatRound eligibility_threshold` is its exact value); the decimal
comparison of shortest round-tripping literals orders exactly as the
underlying binary64 values, so it is modelled on those values. -/
def is_eligible (svc : CommissionCalculatorService) (percentage_of_target : ℚ) :
    Bool :=
  floatRound (floatRound svc.eligibility_threshold * 100) ≤ percentage_of_target

/-- `CommissionCalculatorService._calculate_commission_amount`:
`0.0` when ineligible, otherwise
`float((Decimal(str(sales)) * Decimal(str(rate))).quantize(Decimal("0.01"), ROUND_HALF_UP))`.
The product is context-rounded to 28 significant digits before the
quantize step. -/
def calculate_commission_amount (svc : CommissionCalculatorService)
    (sales_amount : ℚ) (eligible : Bool) : ℚ :=
  if eligible = false then 0
  else floatRound (quantize2HalfUp (decimalCtx (sales_amount * svc.commission_rate)))

/-- `CommissionCalculatorService.calculate_commission`. -/
def calculate_commission (svc : CommissionCalculatorService)
    (sales_amount target_amount : ℚ) : Except CalcError CommissionResult :=
  match validate_inputs sales_amount target_amount with
  | Except.error e => Except.error e
  | Except.ok _ =>
    let percentage_of_target_precise := calculate_percentage sales_amount target_amount
    let eligible := is_eligible svc percentage_of_target_precise
    let commission := calculate_commission_amount svc sales_amount eligible
    Except.ok
      { commission := commission
        eligible := eligible
        percentage_of_target := floatRound (pyRound2 percentage_of_target_precise) }

/-- State-explicit rendering of the `calculate_commission` method: the
method receives `self` and the embedding returns the (unmodified) `self`
alongside the result, mirroring that no statement of the method body
assigns to `self.commission_rate` or `self.eligibility_threshold`. -/
def calculate_commission_st (self : CommissionCalculatorService)
    (sales_amount target_amount : ℚ) :
    Except CalcError CommissionResult × CommissionCalculatorService :=
  match validate_inputs sales_amount target_amount with
  | Except.error e => (Except.error e, self)
  | Except.ok _ =>
    let percentage_of_target_precise := calculate_percentage sales_amount target_amount
    let eligible := is_eligible self percentage_of_target_precise
    let commission := calculate_commission_amount self sales_amount eligible
    (Except.ok
      { commission := commission
        eligible := eligible
        percentage_of_target := floatRound (pyRound2 percentage_of_target_precise) },
     self)

/-- The singleton engine `commission_service`, built from
`COMMISSION_RATE = 0.05` and `ELIGIBILITY_THRESHOLD = 0.80`
(`app/core/config.py`). -/
def commission_service : CommissionCalculatorService :=
  ⟨5/100, 80/100⟩

instance {ε α : Type} [DecidableEq ε] [DecidableEq α] : DecidableEq (Except ε α) :=
  fun x y =>
    match x, y with
    | Except.ok a, Except.ok b =>
      if h : a = b then isTrue (by rw [h]) else isFalse (by simp [h])
    | Except.error a, Except.error b =>
      if h : a = b then isTrue (by rw [h]) else isFalse (by simp [h])
    | Except.ok _, Except.error _ => isFalse (by simp)
    | Except.error _, Except.ok _ => isFalse (by simp)

/-! ## Basic lemmas about the half-even integer rounding -/

theorem floor_le_rheInt (x : ℚ) : Int.floor x ≤ rheInt x := by
  unfold rheInt
  split_ifs <;> omega

theorem rheInt_le_floor_add_one (x : ℚ) : rheInt x ≤ Int.floor x + 1 := by
  unfold rheInt
  split_ifs <;> omega

theorem rheInt_intCast (n : ℤ) : rheInt (n : ℚ) = n := by
  unfold rheInt
  have h1 : Int.floor (n : ℚ) = n := Int.floor_intCast n
  rw [h1]
  norm_num

theorem rheInt_le (x : ℚ) : (rheInt x : ℚ) ≤ x + 1/2 := by
  have hf : (Int.floor x : ℚ) ≤ x := Int.floor_le x
  unfold rheInt
  split_ifs with h1 h2 h3 <;> push_cast <;> linarith

theorem le_rheInt (x : ℚ) : x - 1/2 ≤ (rheInt x : ℚ) := by
  have hf : x < Int.floor x + 1 := Int.lt_floor_add_one x
  unfold rheInt
  split_ifs with h1 h2 h3 <;> push_cast <;> linarith

theorem rheInt_mono {x y : ℚ} (h : x ≤ y) : rheInt x ≤ rheInt y := by
  rcases lt_or_eq_of_le (Int.floor_mono h) with hf | hf
  · calc rheInt x ≤ Int.floor x + 1 := rheInt_le_floor_add_one x
      _ ≤ Int.floor y := by omega
      _ ≤ rheInt y := floor_le_rheInt y
  · have hcast : (Int.floor x : ℚ) = (Int.floor y : ℚ) := by rw [hf]
    have hxy : x - (Int.floor x : ℚ) ≤ y - (Int.floor y : ℚ) := by
      rw [hcast]; linarith
    unfold rheInt
    rw [hf] at hxy ⊢
    split_ifs <;> first | omega | linarith

/-! ## Grid rounding lemmas -/

theorem gridRound_le {s : ℚ} (hs : 0 < s) (x : ℚ) : gridRound s x ≤ x + s/2 := by
  unfold gridRound
  have h := rheInt_le (x / s)
  have h2 : (rheInt (x / s) : ℚ) * s ≤ (x / s + 1/2) * s :=
    mul_le_mul_of_nonneg_right h (le_of_lt hs)
  calc (rheInt (x / s) : ℚ) * s ≤ (x / s + 1/2) * s := h2
    _ = x + s/2 := by field_simp; ring

theorem le_gridRound {s : ℚ} (hs : 0 < s) (x : ℚ) : x - s/2 ≤ gridRound s x := by
  unfold gridRound
  have h := le_rheInt (x / s)
  have h2 : (x / s - 1/2) * s ≤ (rheInt (x / s) : ℚ) * s :=
    mul_le_mul_of_nonneg_right h (le_of_lt hs)
  calc x - s/2 = (x / s - 1/2) * s := by field_simp; ring
    _ ≤ (rheInt (x / s) : ℚ) * s := h2

theorem le_gridRound_of_le {s : ℚ} (hs : 0 < s) (x : ℚ) (k : ℤ)
    (h : (k : ℚ) * s ≤ x) : (k : ℚ) * s ≤ gridRound s x := by
  unfold gridRound
  have hk : (k : ℚ) ≤ x / s := (le_div_iff₀ hs).mpr h
  have : k ≤ rheInt (x / s) := by
    have := rheInt_mono (x := (k : ℚ)) (y := x / s) hk
    rwa [rheInt_intCast] at this
  exact mul_le_mul_of_nonneg_right (by exact_mod_cast this) (le_of_lt hs)

theorem gridRound_eq_self {s : ℚ} (hs : 0 < s) {x : ℚ} (k : ℤ)
    (h : x = (k : ℚ) * s) : gridRound s x = x := by
  unfold gridRound
  have hk : x / s = (k : ℚ) := by
    rw [h]; field_simp
  rw [hk, rheInt_intCast, ← h]

/-! ## Correctness of the fuel-driven logarithms -/

theorem nlogF_spec {b : ℕ} (hb : 2 ≤ b) :
    ∀ (f n : ℕ), 1 ≤ n → n < b ^ f →
      b ^ nlogF b f n ≤ n ∧ n < b ^ (nlogF b f n + 1) := by
  intro f
  induction f with
  | zero =>
    intro n h1 h2
    simp only [pow_zero] at h2
    omega
  | succ f ih =>
    intro n h1 h2
    unfold nlogF
    split_ifs with hsmall
    · constructor
      · simpa using h1
      · simpa using hsmall
    · push_neg at hsmall
      have hb0 : 0 < b := by omega
      have hdiv1 : 1 ≤ n / b := (Nat.one_le_div_iff hb0).mpr hsmall
      have hdiv2 : n / b < b ^ f := by
        rw [Nat.div_lt_iff_lt_mul hb0]
        calc n < b ^ (f + 1) := h2
          _ = b ^ f * b := by ring
      obtain ⟨g1, g2⟩ := ih (n / b) hdiv1 hdiv2
      constructor
      · calc b ^ (nlogF b f (n / b) + 1) = b ^ nlogF b f (n / b) * b := by ring
          _ ≤ (n / b) * b := Nat.mul_le_mul_right b g1
          _ ≤ n := Nat.div_mul_le_self n b
      · have hmod : n < b * (n / b) + b := by
          have := Nat.div_add_mod n b
          have := Nat.mod_lt n hb0
          omega
        calc n < b * (n / b) + b := hmod
          _ = b * (n / b + 1) := by ring
          _ ≤ b * b ^ (nlogF b f (n / b) + 1) := Nat.mul_le_mul_left b g2
          _ = b ^ (nlogF b f (n / b) + 1 + 1) := by ring

theorem qlogb_spec (b : ℕ) (x : ℚ) (hb : 2 ≤ b) (hx : 0 < x)
    (hub : x < (b : ℚ) ^ logFuel) (hlb : x⁻¹ < (b : ℚ) ^ logFuel) :
    (b : ℚ) ^ qlogb b x ≤ x ∧ x < (b : ℚ) ^ (qlogb b x + 1) := by
  have hbq : (1 : ℚ) < (b : ℚ) := by exact_mod_cast hb.trans_lt' one_lt_two
  have hb0 : (0 : ℚ) < (b : ℚ) := lt_trans one_pos hbq
  by_cases hx1 : 1 ≤ x
  · -- case 1 ≤ x
    unfold qlogb
    rw [if_pos hx1]
    have hfl : (1 : ℤ) ≤ Int.floor x := by
      rw [Int.le_floor]; exact_mod_cast hx1
    set n : ℕ := (Int.floor x).toNat with hn
    have hncast : (n : ℤ) = Int.floor x := Int.toNat_of_nonneg (by omega)
    have hn1 : 1 ≤ n := by omega
    have hnx : (n : ℚ) ≤ x := by
      calc (n : ℚ) = ((n : ℤ) : ℚ) := by push_cast; ring
        _ = (Int.floor x : ℚ) := by rw [hncast]
        _ ≤ x := Int.floor_le x
    have hn2 : n < b ^ logFuel := by
      have : (n : ℚ) < ((b ^ logFuel : ℕ) : ℚ) := by
        push_cast
        exact lt_of_le_of_lt hnx hub
      exact_mod_cast this
    obtain ⟨g1, g2⟩ := nlogF_spec hb logFuel n hn1 hn2
    constructor
    · calc (b : ℚ) ^ ((nlogF b logFuel n : ℕ) : ℤ)
          = ((b ^ nlogF b logFuel n : ℕ) : ℚ) := by
            rw [zpow_natCast]; push_cast; ring
        _ ≤ (n : ℚ) := by exact_mod_cast g1
        _ ≤ x := hnx
    · have hxn : x < (n : ℚ) + 1 := by
        calc x < (Int.floor x : ℚ) + 1 := Int.lt_floor_add_one x
          _ = (n : ℚ) + 1 := by rw [← hncast]; push_cast; ring
      calc x < (n : ℚ) + 1 := hxn
        _ ≤ ((b ^ (nlogF b logFuel n + 1) : ℕ) : ℚ) := by exact_mod_cast g2
        _ = (b : ℚ) ^ (nlogF b logFuel n + 1) := by push_cast; ring
        _ = (b : ℚ) ^ (((nlogF b logFuel n : ℕ) : ℤ) + 1) := by
            rw [show ((nlogF b logFuel n : ℕ) : ℤ) + 1 =
              ((nlogF b logFuel n + 1 : ℕ) : ℤ) by push_cast; ring, zpow_natCast]
  · -- case x < 1
    unfold qlogb
    rw [if_neg hx1]
    push_neg at hx1
    have hy : 1 < x⁻¹ := (one_lt_inv_iff₀).mpr ⟨hx, hx1⟩
    have hfl : (1 : ℤ) ≤ Int.floor x⁻¹ := by
      rw [Int.le_floor]; exact_mod_cast hy.le
    set m : ℕ := (Int.floor x⁻¹).toNat with hm
    have hmcast : (m : ℤ) = Int.floor x⁻¹ := Int.toNat_of_nonneg (by omega)
    have hm1 : 1 ≤ m := by omega
    have hmy : (m : ℚ) ≤ x⁻¹ := by
      calc (m : ℚ) = (Int.floor x⁻¹ : ℚ) := by rw [← hmcast]; push_cast; ring
        _ ≤ x⁻¹ := Int.floor_le x⁻¹
    have hym : x⁻¹ < (m : ℚ) + 1 := by
      calc x⁻¹ < (Int.floor x⁻¹ : ℚ) + 1 := Int.lt_floor_add_one x⁻¹
        _ = (m : ℚ) + 1 := by rw [← hmcast]; push_cast; ring
    have hm2 : m < b ^ logFuel := by
      have : (m : ℚ) < ((b ^ logFuel : ℕ) : ℚ) := by
        push_cast
        exact lt_of_le_of_lt hmy hlb
      exact_mod_cast this
    obtain ⟨g1, g2⟩ := nlogF_spec hb logFuel m hm1 hm2
    set c : ℕ := nlogF b logFuel m with hc
    have hcy1 : ((b : ℚ) ^ c : ℚ) ≤ x⁻¹ := by
      calc ((b : ℚ) ^ c : ℚ) = ((b ^ c : ℕ) : ℚ) := by push_cast; ring
        _ ≤ (m : ℚ) := by exact_mod_cast g1
        _ ≤ x⁻¹ := hmy
    have hcy2 : x⁻¹ < (b : ℚ) ^ (c + 1) := by
      calc x⁻¹ < (m : ℚ) + 1 := hym
        _ ≤ ((b ^ (c + 1) : ℕ) : ℚ) := by exact_mod_cast g2
        _ = (b : ℚ) ^ (c + 1) := by push_cast; ring
    have hbc0 : (0 : ℚ) < (b : ℚ) ^ c := pow_pos hb0 c
    have hbc10 : (0 : ℚ) < (b : ℚ) ^ (c + 1) := pow_pos hb0 (c + 1)
    -- upper bound x ≤ b ^ (-c), lower bound b ^ (-(c+1)) < x
    have hxle : x ≤ ((b : ℚ) ^ c)⁻¹ := by
      rw [← one_div, le_div_iff₀ hbc0]
      calc x * (b : ℚ) ^ c ≤ x * x⁻¹ := by
            exact mul_le_mul_of_nonneg_left hcy1 hx.le
        _ = 1 := mul_inv_cancel₀ (ne_of_gt hx)
    have hxgt : ((b : ℚ) ^ (c + 1))⁻¹ < x := by
      rw [← one_div, div_lt_iff₀ hbc10]
      calc (1 : ℚ) = x * x⁻¹ := (mul_inv_cancel₀ (ne_of_gt hx)).symm
        _ < x * (b : ℚ) ^ (c + 1) := by
            exact mul_lt_mul_of_pos_left hcy2 hx
    have hzc : (b : ℚ) ^ (-(c : ℤ)) = ((b : ℚ) ^ c)⁻¹ := by
      rw [zpow_neg, zpow_natCast]
    have hzc1 : (b : ℚ) ^ (-(c : ℤ) - 1) = ((b : ℚ) ^ (c + 1))⁻¹ := by
      rw [show -(c : ℤ) - 1 = -((c : ℤ) + 1) by ring, zpow_neg]
      congr 1
      rw [show ((c : ℤ) + 1) = ((c + 1 : ℕ) : ℤ) by push_cast; ring, zpow_natCast]
    split_ifs with heq
    · -- x = b ^ (-c)
      have hxeq : x = (b : ℚ) ^ (-(c : ℤ)) := by
        rw [hzc]
        have hne : ((b : ℚ) ^ c) ≠ 0 := ne_of_gt hbc0
        field_simp
        linear_combination heq
      constructor
      · rw [hxeq]
      · rw [hxeq]
        have hsplit : (b : ℚ) ^ (-(c : ℤ) + 1) = (b : ℚ) ^ (-(c : ℤ)) * b := by
          rw [zpow_add_one₀ (ne_of_gt hb0)]
        rw [hsplit]
        have hpos : (0 : ℚ) < (b : ℚ) ^ (-(c : ℤ)) := zpow_pos hb0 _
        nlinarith
    · -- x < b ^ (-c) strictly
      have hne : x ≠ ((b : ℚ) ^ c)⁻¹ := by
        intro hcontra
        apply heq
        rw [hcontra]
        exact inv_mul_cancel₀ (ne_of_gt hbc0)
      constructor
      · rw [hzc1]; exact hxgt.le
      · rw [show (-(c : ℤ) - 1 + 1) = -(c : ℤ) by ring, hzc]
        exact lt_of_le_of_ne hxle hne

/-! ## Error bounds and threshold preservation for significance rounding -/

theorem gridRound_err (β : ℕ) (π : ℤ) (x : ℚ) (hb : 2 ≤ β) (h0 : 0 < x)
    (hub : x < (β : ℚ) ^ logFuel) (hlb : x⁻¹ < (β : ℚ) ^ logFuel) :
    x - x / (2 * (β : ℚ) ^ π) ≤ gridRound ((β : ℚ) ^ (qlogb β x - π)) x ∧
    gridRound ((β : ℚ) ^ (qlogb β x - π)) x ≤ x + x / (2 * (β : ℚ) ^ π) := by
  obtain ⟨hl, hr⟩ := qlogb_spec β x hb h0 hub hlb
  have hbq : (0 : ℚ) < (β : ℚ) := by positivity
  have hs : (0 : ℚ) < (β : ℚ) ^ (qlogb β x - π) := zpow_pos hbq _
  have hπ : (0 : ℚ) < (β : ℚ) ^ π := zpow_pos hbq _
  have hsle : (β : ℚ) ^ (qlogb β x - π) ≤ x / (β : ℚ) ^ π := by
    rw [zpow_sub₀ (ne_of_gt hbq)]
    exact div_le_div_of_nonneg_right hl hπ.le
  have h1 := le_gridRound hs x
  have h2 := gridRound_le hs x
  have hdd : x / (2 * (β : ℚ) ^ π) = (x / (β : ℚ) ^ π) / 2 := by
    rw [div_div, mul_comm]
  constructor
  · rw [hdd]
    linarith
  · rw [hdd]
    linarith

theorem gridRound_ge_mul (β : ℕ) (π : ℤ) (x : ℚ) (a w : ℤ)
    (hb : 2 ≤ β) (h0 : 0 < x)
    (hub : x < (β : ℚ) ^ logFuel) (hlb : x⁻¹ < (β : ℚ) ^ logFuel)
    (hπ : 0 ≤ π) (haπ : (a : ℚ) ≤ (β : ℚ) ^ (π + 1))
    (hc : (a : ℚ) * (β : ℚ) ^ w ≤ x) :
    (a : ℚ) * (β : ℚ) ^ w ≤ gridRound ((β : ℚ) ^ (qlogb β x - π)) x := by
  obtain ⟨hl, hr⟩ := qlogb_spec β x hb h0 hub hlb
  have hbq : (0 : ℚ) < (β : ℚ) := by positivity
  have hb1 : (1 : ℚ) ≤ (β : ℚ) := by
    have : (2 : ℚ) ≤ (β : ℚ) := by exact_mod_cast hb
    linarith
  have hs : (0 : ℚ) < (β : ℚ) ^ (qlogb β x - π) := zpow_pos hbq _
  by_cases hcase : qlogb β x - π ≤ w
  · -- the grid unit divides the threshold value
    set k : ℤ := a * (β : ℤ) ^ (w - (qlogb β x - π)).toNat with hkdef
    have hk : (k : ℚ) * (β : ℚ) ^ (qlogb β x - π) = (a : ℚ) * (β : ℚ) ^ w := by
      rw [hkdef]
      push_cast
      rw [← zpow_natCast (β : ℚ) (w - (qlogb β x - π)).toNat,
        Int.toNat_of_nonneg (by omega), mul_assoc,
        ← zpow_add₀ (ne_of_gt hbq),
        show (w - (qlogb β x - π)) + (qlogb β x - π) = w from by ring]
    have hgoal : (k : ℚ) * (β : ℚ) ^ (qlogb β x - π) ≤ x := by
      rw [hk]; exact hc
    have := le_gridRound_of_le hs x k hgoal
    rw [hk] at this
    exact this
  · -- the value sits at least one full binade above the threshold
    push_neg at hcase
    have he : π + w + 1 ≤ qlogb β x := by omega
    have h1 : (a : ℚ) * (β : ℚ) ^ w ≤ (β : ℚ) ^ qlogb β x := by
      calc (a : ℚ) * (β : ℚ) ^ w ≤ (β : ℚ) ^ (π + 1) * (β : ℚ) ^ w := by
            exact mul_le_mul_of_nonneg_right haπ (le_of_lt (zpow_pos hbq _))
        _ = (β : ℚ) ^ (π + 1 + w) := by rw [← zpow_add₀ (ne_of_gt hbq)]
        _ ≤ (β : ℚ) ^ qlogb β x := by
            apply zpow_le_zpow_right₀ hb1
            omega
    have h2 : (β : ℚ) ^ qlogb β x ≤ gridRound ((β : ℚ) ^ (qlogb β x - π)) x := by
      set kp : ℤ := (β : ℤ) ^ π.toNat with hkpdef
      have hkp : (kp : ℚ) * (β : ℚ) ^ (qlogb β x - π) = (β : ℚ) ^ qlogb β x := by
        rw [hkpdef]
        push_cast
        rw [← zpow_natCast (β : ℚ) π.toNat, Int.toNat_of_nonneg hπ,
          ← zpow_add₀ (ne_of_gt hbq),
          show π + (qlogb β x - π) = qlogb β x from by ring]
      have hgoal : (kp : ℚ) * (β : ℚ) ^ (qlogb β x - π) ≤ x := by
        rw [hkp]; exact hl
      have := le_gridRound_of_le hs x kp hgoal
      rw [hkp] at this
      exact this
    linarith

/-! ## Sign-case wrappers and specializations to the two roundings -/

theorem decimalCtx_of_pos {x : ℚ} (h : 0 < x) : decimalCtx x = decimalCtxPos x := by
  unfold decimalCtx
  rw [if_neg h.ne', if_pos h]

theorem decimalCtx_zero : decimalCtx 0 = 0 := by
  unfold decimalCtx
  rw [if_pos rfl]

theorem floatRound_of_pos {x : ℚ} (h : 0 < x) : floatRound x = floatRoundPos x := by
  unfold floatRound
  rw [if_neg h.ne', if_pos h]

theorem floatRound_zero : floatRound 0 = 0 := by
  unfold floatRound
  rw [if_pos rfl]

theorem inv_le_of_one_le_mul {x : ℚ} (M : ℚ) (hx : 0 < x) (h : 1 ≤ M * x) : x⁻¹ ≤ M := by
  rw [inv_eq_one_div, div_le_iff₀ hx]
  exact h

theorem decimalCtxPos_bounds (x : ℚ) (h0 : 0 < x)
    (hub : x < (10 : ℚ) ^ logFuel) (hlb : x⁻¹ < (10 : ℚ) ^ logFuel) :
    x - x / (2 * 10 ^ 27) ≤ decimalCtxPos x ∧
    decimalCtxPos x ≤ x + x / (2 * 10 ^ 27) := by
  have h := gridRound_err 10 27 x (by norm_num) h0
    (by exact_mod_cast hub) (by exact_mod_cast hlb)
  unfold decimalCtxPos
  have hcast : ((10 : ℕ) : ℚ) = (10 : ℚ) := by norm_num
  rw [hcast] at h
  have hpow : ((10 : ℚ) ^ (27 : ℤ)) = (10 : ℚ) ^ (27 : ℕ) := by
    rw [← zpow_natCast]
    norm_num
  rw [hpow] at h
  exact h

theorem floatRoundPos_bounds (x : ℚ) (h0 : 0 < x)
    (hub : x < (2 : ℚ) ^ logFuel) (hlb : x⁻¹ < (2 : ℚ) ^ logFuel) :
    x - x / (2 * 2 ^ 52) ≤ floatRoundPos x ∧
    floatRoundPos x ≤ x + x / (2 * 2 ^ 52) := by
  have h := gridRound_err 2 52 x (by norm_num) h0
    (by exact_mod_cast hub) (by exact_mod_cast hlb)
  unfold floatRoundPos
  have hcast : ((2 : ℕ) : ℚ) = (2 : ℚ) := by norm_num
  rw [hcast] at h
  have hpow : ((2 : ℚ) ^ (52 : ℤ)) = (2 : ℚ) ^ (52 : ℕ) := by
    rw [← zpow_natCast]
    norm_num
  rw [hpow] at h
  exact h

theorem decimalCtxPos_ge_fourFifths (x : ℚ) (h : 4/5 ≤ x)
    (hub : x < (10 : ℚ) ^ logFuel) : 4/5 ≤ decimalCtxPos x := by
  have h0 : (0 : ℚ) < x := lt_of_lt_of_le (by norm_num) h
  have hlb : x⁻¹ < (10 : ℚ) ^ logFuel := by
    have h1 : x⁻¹ ≤ 5/4 := inv_le_of_one_le_mul _ h0 (by linarith)
    calc x⁻¹ ≤ 5/4 := h1
      _ < (10 : ℚ) ^ logFuel := by norm_num [logFuel]
  have hmain := gridRound_ge_mul 10 27 x 8 (-1) (by norm_num) h0
    (by exact_mod_cast hub) (by exact_mod_cast hlb) (by norm_num)
    (by norm_num) (by push_cast; norm_num; linarith)
  unfold decimalCtxPos
  have hval : ((8 : ℤ) : ℚ) * ((10 : ℕ) : ℚ) ^ (-1 : ℤ) = 4/5 := by
    push_cast
    norm_num
  rw [hval] at hmain
  have hcast : ((10 : ℕ) : ℚ) = (10 : ℚ) := by norm_num
  rw [hcast] at hmain
  exact hmain

theorem decimalCtxPos_ge_80 (x : ℚ) (h : 80 ≤ x)
    (hub : x < (10 : ℚ) ^ logFuel) : 80 ≤ decimalCtxPos x := by
  have h0 : (0 : ℚ) < x := lt_of_lt_of_le (by norm_num) h
  have hlb : x⁻¹ < (10 : ℚ) ^ logFuel := by
    have h1 : x⁻¹ ≤ 1/80 := inv_le_of_one_le_mul _ h0 (by linarith)
    calc x⁻¹ ≤ 1/80 := h1
      _ < (10 : ℚ) ^ logFuel := by norm_num [logFuel]
  have hmain := gridRound_ge_mul 10 27 x 8 1 (by norm_num) h0
    (by exact_mod_cast hub) (by exact_mod_cast hlb) (by norm_num)
    (by norm_num) (by push_cast; norm_num; linarith)
  unfold decimalCtxPos
  have hval : ((8 : ℤ) : ℚ) * ((10 : ℕ) : ℚ) ^ (1 : ℤ) = 80 := by
    push_cast
    norm_num
  rw [hval] at hmain
  have hcast : ((10 : ℕ) : ℚ) = (10 : ℚ) := by norm_num
  rw [hcast] at hmain
  exact hmain

theorem floatRoundPos_ge_80 (x : ℚ) (h : 80 ≤ x)
    (hub : x < (2 : ℚ) ^ logFuel) : 80 ≤ floatRoundPos x := by
  have h0 : (0 : ℚ) < x := lt_of_lt_of_le (by norm_num) h
  have hlb : x⁻¹ < (2 : ℚ) ^ logFuel := by
    have h1 : x⁻¹ ≤ 1/80 := inv_le_of_one_le_mul _ h0 (by linarith)
    calc x⁻¹ ≤ 1/80 := h1
      _ < (2 : ℚ) ^ logFuel := by norm_num [logFuel]
  have hmain := gridRound_ge_mul 2 52 x 5 4 (by norm_num) h0
    (by exact_mod_cast hub) (by exact_mod_cast hlb) (by norm_num)
    (by norm_num) (by push_cast; norm_num; linarith)
  unfold floatRoundPos
  have hval : ((5 : ℤ) : ℚ) * ((2 : ℕ) : ℚ) ^ (4 : ℤ) = 80 := by
    push_cast
    norm_num
  rw [hval] at hmain
  have hcast : ((2 : ℕ) : ℚ) = (2 : ℚ) := by norm_num
  rw [hcast] at hmain
  exact hmain

/-! ## Linear-arithmetic helpers over free variables.
The rounding pipeline values are instantiated for the variables here;
keeping these proofs over free variables keeps every `linarith` problem
purely linear and keeps elaboration away from the recursive definitions. -/

theorem hlp_low1 (x c1 : ℚ) (hxlb : 1/10 ^ 14 ≤ x)
    (hlo : x - x / (2 * 10 ^ 27) ≤ c1) :
    0 < c1 ∧ 0 < c1 * 100 ∧ 1000 ≤ 10 ^ 16 * (c1 * 100) :=
  ⟨by linarith, by linarith, by linarith⟩

theorem hlp_low2 (y c2 : ℚ) (hylb : 1000 ≤ 10 ^ 16 * y)
    (hlo : y - y / (2 * 10 ^ 27) ≤ c2) :
    0 < c2 ∧ 1 ≤ 10 ^ 16 * c2 :=
  ⟨by linarith, by linarith⟩

theorem hlp_yub (x c : ℚ) (hx : x ≤ 10 ^ 14)
    (hhi : c ≤ x + x / (2 * 10 ^ 27)) : c * 100 ≤ 3 * 10 ^ 16 := by
  linarith

theorem hlp_c2ub (y c : ℚ) (hy : y ≤ 3 * 10 ^ 16)
    (hhi : c ≤ y + y / (2 * 10 ^ 27)) : c < (2 : ℚ) ^ logFuel := by
  have h1 : c ≤ 7 * 10 ^ 16 := by linarith
  calc c ≤ 7 * 10 ^ 16 := h1
    _ < (2 : ℚ) ^ logFuel := by norm_num [logFuel]

theorem inv_lt_fuel10 (t : ℚ) (ht : 0 < t) (h : 1 ≤ 10 ^ 16 * t) :
    t⁻¹ < (10 : ℚ) ^ logFuel :=
  lt_of_le_of_lt (inv_le_of_one_le_mul (10 ^ 16) ht h)
    (by norm_num [logFuel])

theorem inv_lt_fuel2 (t : ℚ) (ht : 0 < t) (h : 1 ≤ 10 ^ 16 * t) :
    t⁻¹ < (2 : ℚ) ^ logFuel :=
  lt_of_le_of_lt (inv_le_of_one_le_mul (10 ^ 16) ht h)
    (by norm_num [logFuel])

theorem mul100_ge80 (u : ℚ) (h : 4/5 ≤ u) : 80 ≤ u * 100 := by linarith

/-- Case `exact percentage < 80`: the three rounded values stay below 80
because the exact ratio is at least `2 * 10 ^ (-15)` below `4/5` while
each rounding moves the value by at most a relative `10 ^ (-27)`
(decimal context) or `2 ^ (-53)` (binary64). -/
theorem chainB (x c1 c2 pf : ℚ)
    (hx1 : x ≤ 4/5 - 2/10 ^ 15)
    (hc1 : c1 ≤ x + x / (2 * 10 ^ 27))
    (hc2 : c2 ≤ c1 * 100 + c1 * 100 / (2 * 10 ^ 27))
    (hpf : pf ≤ c2 + c2 / (2 * 2 ^ 52)) : pf < 80 := by
  linarith

/-! ## Main numerical lemma: on the currency domain the rounded pipeline
decides `>= 80` exactly as the exact rational percentage does -/

theorem percentage_ge_80_iff (k m : ℕ) (hm : 1 ≤ m)
    (hk : k ≤ 10 ^ 14) (hm2 : m ≤ 10 ^ 14) :
    (80 ≤ calculate_percentage ((k : ℚ) / 100) ((m : ℚ) / 100) ↔
      4 * (m : ℚ) ≤ 5 * (k : ℚ)) := by
  have hmq : (1 : ℚ) ≤ (m : ℚ) := by exact_mod_cast hm
  have hm0 : (0 : ℚ) < (m : ℚ) := by linarith
  have hmub : (m : ℚ) ≤ 10 ^ 14 := by exact_mod_cast hm2
  have hkub : (k : ℚ) ≤ 10 ^ 14 := by exact_mod_cast hk
  have hdiv : ((k : ℚ) / 100) / ((m : ℚ) / 100) = (k : ℚ) / (m : ℚ) := by
    field_simp
  unfold calculate_percentage
  rw [hdiv]
  by_cases hk0 : k = 0
  · subst hk0
    push_cast
    rw [zero_div, decimalCtx_zero, zero_mul, decimalCtx_zero, floatRound_zero]
    constructor
    · intro h; linarith
    · intro h; linarith
  · have hk1 : 1 ≤ k := Nat.one_le_iff_ne_zero.mpr hk0
    have hkq : (1 : ℚ) ≤ (k : ℚ) := by exact_mod_cast hk1
    have hx0 : (0 : ℚ) < (k : ℚ) / (m : ℚ) := by positivity
    have hxub : (k : ℚ) / (m : ℚ) ≤ 10 ^ 14 := by
      rw [div_le_iff₀ hm0]
      nlinarith
    have hx1lb : 1 / 10 ^ 14 ≤ (k : ℚ) / (m : ℚ) := by
      rw [div_le_div_iff₀ (by norm_num) hm0]
      nlinarith
    have hxinv : ((k : ℚ) / (m : ℚ))⁻¹ ≤ 10 ^ 14 := by
      apply inv_le_of_one_le_mul (10 ^ 14) hx0
      calc (1 : ℚ) = 10 ^ 14 * (1 / 10 ^ 14) := by norm_num
        _ ≤ 10 ^ 14 * ((k : ℚ) / (m : ℚ)) := by linarith
    -- stage 1 : context rounding of the ratio
    rw [decimalCtx_of_pos hx0]
    obtain ⟨hc1lo, hc1hi⟩ := decimalCtxPos_bounds ((k : ℚ) / (m : ℚ)) hx0
      (lt_of_le_of_lt hxub (by norm_num [logFuel]))
      (lt_of_le_of_lt hxinv (by norm_num [logFuel]))
    obtain ⟨hc1pos, hy0, hylb⟩ := hlp_low1 _ _ hx1lb hc1lo
    -- stage 2 : context rounding of the percentage
    rw [decimalCtx_of_pos hy0]
    have hyub := hlp_yub _ _ hxub hc1hi
    obtain ⟨hc2lo, hc2hi⟩ := decimalCtxPos_bounds
      (decimalCtxPos ((k : ℚ) / (m : ℚ)) * 100) hy0
      (lt_of_le_of_lt hyub (by norm_num [logFuel]))
      (inv_lt_fuel10 _ hy0 (le_trans (by norm_num) hylb))
    obtain ⟨hc2pos, hc2lb⟩ := hlp_low2 _ _ hylb hc2lo
    -- stage 3 : conversion of the percentage to binary64
    rw [floatRound_of_pos hc2pos]
    obtain ⟨hpflo, hpfhi⟩ := floatRoundPos_bounds
      (decimalCtxPos (decimalCtxPos ((k : ℚ) / (m : ℚ)) * 100)) hc2pos
      (hlp_c2ub _ _ hyub hc2hi)
      (inv_lt_fuel2 _ hc2pos hc2lb)
    constructor
    · -- rounded >= 80 implies exact >= 80 (contrapositive)
      intro hpf80
      by_contra hlt
      push_neg at hlt
      have hnat : 5 * k + 1 ≤ 4 * m := by
        by_contra hcon
        push_neg at hcon
        have h1 : 4 * m ≤ 5 * k := by omega
        have h2 : 4 * (m : ℚ) ≤ 5 * (k : ℚ) := by exact_mod_cast h1
        linarith
      have hq : 5 * (k : ℚ) + 1 ≤ 4 * (m : ℚ) := by exact_mod_cast hnat
      have hx1top : (k : ℚ) / (m : ℚ) ≤ 4/5 - 1/(5 * (m : ℚ)) := by
        rw [show (4 : ℚ)/5 - 1/(5 * (m : ℚ)) = (4 * (m : ℚ) - 1) / (5 * (m : ℚ)) from by
          field_simp
          ring]
        rw [div_le_div_iff₀ hm0 (by linarith)]
        nlinarith
      have hgap : 2 / 10 ^ 15 ≤ (1 : ℚ) / (5 * (m : ℚ)) := by
        rw [div_le_div_iff₀ (by norm_num) (by linarith)]
        nlinarith
      have hx1num : (k : ℚ) / (m : ℚ) ≤ 4/5 - 2/10 ^ 15 := by linarith
      exact absurd hpf80 (not_le.mpr (chainB _ _ _ _ hx1num hc1hi hc2hi hpfhi))
    · -- exact >= 80 implies rounded >= 80 (fixed points are preserved)
      intro hexact
      have hx45 : 4/5 ≤ (k : ℚ) / (m : ℚ) := by
        rw [le_div_iff₀ hm0]
        linarith
      have h1 := decimalCtxPos_ge_fourFifths ((k : ℚ) / (m : ℚ)) hx45
        (lt_of_le_of_lt hxub (by norm_num [logFuel]))
      have h2 := mul100_ge80 _ h1
      have h3 := decimalCtxPos_ge_80 _ h2
        (lt_of_le_of_lt hyub (by norm_num [logFuel]))
      exact floatRoundPos_ge_80 _ h3 (hlp_c2ub _ _ hyub hc2hi)

/-! ## Unfolding lemmas for the engine pipeline -/

theorem validate_inputs_ok (s t : ℚ) (hs : 0 ≤ s) (ht : 0 < t) :
    validate_inputs s t = Except.ok () := by
  unfold validate_inputs
  rw [if_neg (not_lt.mpr hs), if_neg (not_le.mpr ht)]

theorem validate_inputs_neg_sales (s t : ℚ) (hs : s < 0) :
    validate_inputs s t = Except.error (CalcError.validationError
      "sales_amount cannot be negative" [("sales_amount", s)]) := by
  unfold validate_inputs
  rw [if_pos hs]

theorem validate_inputs_bad_target (s t : ℚ) (hs : 0 ≤ s) (ht : t ≤ 0) :
    validate_inputs s t = Except.error (CalcError.validationError
      "target_amount must be greater than zero" [("target_amount", t)]) := by
  unfold validate_inputs
  rw [if_neg (not_lt.mpr hs), if_pos ht]

theorem calculate_commission_ok (svc : CommissionCalculatorService) (s t : ℚ)
    (hv : validate_inputs s t = Except.ok ()) :
    calculate_commission svc s t =
      Except.ok
        { commission := calculate_commission_amount svc s
            (is_eligible svc (calculate_percentage s t))
          eligible := is_eligible svc (calculate_percentage s t)
          percentage_of_target := floatRound (pyRound2 (calculate_percentage s t)) } := by
  unfold calculate_commission
  rw [hv]

theorem calculate_commission_err (svc : CommissionCalculatorService) (s t : ℚ)
    (e : CalcError) (hv : validate_inputs s t = Except.error e) :
    calculate_commission svc s t = Except.error e := by
  unfold calculate_commission
  rw [hv]

theorem amount_of_ineligible (svc : CommissionCalculatorService) (s : ℚ) :
    calculate_commission_amount svc s false = 0 := rfl

theorem amount_of_eligible (svc : CommissionCalculatorService) (s : ℚ) :
    calculate_commission_amount svc s true =
      floatRound (quantize2HalfUp (decimalCtx (s * svc.commission_rate))) := rfl

theorem is_eligible_true_iff (svc : CommissionCalculatorService) (p : ℚ) :
    is_eligible svc p = true ↔
      floatRound (floatRound svc.eligibility_threshold * 100) ≤ p := by
  unfold is_eligible
  exact decide_eq_true_iff

/-- With the default configuration the binary64 threshold percentage is
exactly 80: `float(0.80) * 100` rounds back to `80.0`. -/
theorem default_threshold_eval :
    floatRound (floatRound ((80 : ℚ) / 100) * 100) = 80 := by
  with_unfolding_all decide

theorem is_eligible_default (p : ℚ) :
    is_eligible commission_service p = true ↔ 80 ≤ p := by
  rw [is_eligible_true_iff]
  rw [show commission_service.eligibility_threshold = (80 : ℚ) / 100 from rfl]
  rw [default_threshold_eval]

/-! ## Evaluating the roundings on concrete inputs without running the
fuel recursion: `qlogb` is pinned by its characterization, after which the
grid rounding is plain rational arithmetic -/

theorem qlogb_eq_of (b : ℕ) (x : ℚ) (hb : 2 ≤ b) (hx : 0 < x)
    (hub : x < (b : ℚ) ^ logFuel) (hlb : x⁻¹ < (b : ℚ) ^ logFuel)
    (e : ℤ) (h1 : (b : ℚ) ^ e ≤ x) (h2 : x < (b : ℚ) ^ (e + 1)) :
    qlogb b x = e := by
  obtain ⟨g1, g2⟩ := qlogb_spec b x hb hx hub hlb
  have hb1 : (1 : ℚ) ≤ (b : ℚ) := by
    have : (2 : ℚ) ≤ (b : ℚ) := by exact_mod_cast hb
    linarith
  rcases lt_trichotomy (qlogb b x) e with h | h | h
  · exfalso
    have : (b : ℚ) ^ (qlogb b x + 1) ≤ (b : ℚ) ^ e :=
      zpow_le_zpow_right₀ hb1 (by omega)
    linarith
  · exact h
  · exfalso
    have : (b : ℚ) ^ (e + 1) ≤ (b : ℚ) ^ qlogb b x :=
      zpow_le_zpow_right₀ hb1 (by omega)
    linarith

theorem decimalCtxPos_eval (x r : ℚ) (e : ℤ) (hq : qlogb 10 x = e)
    (hr : ((rheInt (x / (10 : ℚ) ^ (e - 27)) : ℤ) : ℚ) * (10 : ℚ) ^ (e - 27) = r) :
    decimalCtxPos x = r := by
  unfold decimalCtxPos gridRound
  rw [hq]
  exact hr

theorem floatRoundPos_eval (x r : ℚ) (e : ℤ) (hq : qlogb 2 x = e)
    (hr : ((rheInt (x / (2 : ℚ) ^ (e - 52)) : ℤ) : ℚ) * (2 : ℚ) ^ (e - 52) = r) :
    floatRoundPos x = r := by
  unfold floatRoundPos gridRound
  rw [hq]
  exact hr

theorem decimalCtx_fixed (n q : ℕ) (hn : n < 10 ^ 28) (hq : q ≤ 30) :
    decimalCtx ((n : ℚ) / 10 ^ q) = (n : ℚ) / 10 ^ q := by
  by_cases hn0 : n = 0
  · subst hn0
    push_cast
    rw [zero_div, decimalCtx_zero]
  · have hn1 : 1 ≤ n := Nat.one_le_iff_ne_zero.mpr hn0
    have hnq : (1 : ℚ) ≤ (n : ℚ) := by exact_mod_cast hn1
    have hnub : (n : ℚ) < 10 ^ 28 := by exact_mod_cast hn
    have hp : (0 : ℚ) < 10 ^ q := by positivity
    have hp1 : (1 : ℚ) ≤ 10 ^ q := one_le_pow₀ (by norm_num)
    have hqub : (10 : ℚ) ^ q ≤ 10 ^ 30 := pow_le_pow_right₀ (by norm_num) hq
    have hx0 : (0 : ℚ) < (n : ℚ) / 10 ^ q := by positivity
    rw [decimalCtx_of_pos hx0]
    have hub : (n : ℚ) / 10 ^ q < (10 : ℚ) ^ logFuel := by
      have h1 : (n : ℚ) / 10 ^ q ≤ (n : ℚ) := div_le_self (by positivity) hp1
      calc (n : ℚ) / 10 ^ q ≤ (n : ℚ) := h1
        _ < 10 ^ 28 := hnub
        _ ≤ (10 : ℚ) ^ logFuel := by norm_num [logFuel]
    have hlbq : ((n : ℚ) / 10 ^ q)⁻¹ < (10 : ℚ) ^ logFuel := by
      have h2 : 1 / 10 ^ 30 ≤ (n : ℚ) / 10 ^ q := by
        rw [div_le_div_iff₀ (by norm_num) hp]
        nlinarith
      have h1 : 1 ≤ 10 ^ 30 * ((n : ℚ) / 10 ^ q) := by linarith
      exact lt_of_le_of_lt (inv_le_of_one_le_mul (10 ^ 30) hx0 h1)
        (by norm_num [logFuel])
    obtain ⟨hl, hr⟩ := qlogb_spec 10 ((n : ℚ) / 10 ^ q) (by norm_num) hx0
      (by exact_mod_cast hub) (by exact_mod_cast hlbq)
    norm_num at hl hr
    have hx28 : (n : ℚ) / 10 ^ q < (10 : ℚ) ^ ((28 : ℤ) - (q : ℤ)) := by
      rw [zpow_sub₀ (by norm_num : (10 : ℚ) ≠ 0)]
      rw [show ((10 : ℚ) ^ (28 : ℤ)) = (10 : ℚ) ^ (28 : ℕ) from by
        rw [← zpow_natCast]; norm_num]
      rw [show ((10 : ℚ) ^ ((q : ℕ) : ℤ)) = (10 : ℚ) ^ q from by
        rw [← zpow_natCast]]
      rw [div_lt_div_iff₀ hp hp]
      nlinarith
    have he : qlogb 10 ((n : ℚ) / 10 ^ q) ≤ 27 - (q : ℤ) := by
      by_contra hcon
      push_neg at hcon
      have hz : (10 : ℚ) ^ ((28 : ℤ) - (q : ℤ)) ≤
          (10 : ℚ) ^ qlogb 10 ((n : ℚ) / 10 ^ q) :=
        zpow_le_zpow_right₀ (by norm_num) (by omega)
      linarith
    unfold decimalCtxPos
    apply gridRound_eq_self (zpow_pos (by norm_num) _)
      ((n : ℤ) * 10 ^ (27 - (q : ℤ) - qlogb 10 ((n : ℚ) / 10 ^ q)).toNat)
    push_cast
    rw [← zpow_natCast (10 : ℚ)
      (27 - (q : ℤ) - qlogb 10 ((n : ℚ) / 10 ^ q)).toNat]
    rw [Int.toNat_of_nonneg (by omega)]
    rw [mul_assoc, ← zpow_add₀ (by norm_num : (10 : ℚ) ≠ 0)]
    rw [show 27 - (q : ℤ) - qlogb 10 ((n : ℚ) / 10 ^ q) +
        (qlogb 10 ((n : ℚ) / 10 ^ q) - 27) = -(q : ℤ) from by ring]
    rw [zpow_neg]
    rw [show ((10 : ℚ) ^ ((q : ℕ) : ℤ)) = (10 : ℚ) ^ q from by
      rw [← zpow_natCast]]
    rw [div_eq_mul_inv]
theorem pct_eval_s1 : calculate_percentage 100000 120000 = 5864062014805333/70368744177664 := by
  unfold calculate_percentage
  rw [decimalCtx_of_pos (by norm_num : (0 : ℚ) < 100000 / 120000)]
  rw [show decimalCtxPos ((100000 : ℚ) / 120000) = (8333333333333333333333333333 : ℚ)/10000000000000000000000000000 from
    decimalCtxPos_eval _ _ (-1)
      (qlogb_eq_of 10 _ (by norm_num) (by norm_num) (by norm_num [logFuel])
        (by norm_num [logFuel]) (-1) (by norm_num) (by norm_num))
      (by norm_num [rheInt])]
  rw [decimalCtx_of_pos (by norm_num : (0 : ℚ) < (8333333333333333333333333333 : ℚ)/10000000000000000000000000000 * 100)]
  rw [show decimalCtxPos (((8333333333333333333333333333 : ℚ)/10000000000000000000000000000) * 100) = (8333333333333333333333333333 : ℚ)/100000000000000000000000000 from
    decimalCtxPos_eval _ _ (1)
      (qlogb_eq_of 10 _ (by norm_num) (by norm_num) (by norm_num [logFuel])
        (by norm_num [logFuel]) (1) (by norm_num) (by norm_num))
      (by norm_num [rheInt])]
  rw [floatRound_of_pos (by norm_num : (0 : ℚ) < (8333333333333333333333333333 : ℚ)/100000000000000000000000000)]
  exact floatRoundPos_eval _ _ (6)
    (qlogb_eq_of 2 _ (by norm_num) (by norm_num) (by norm_num [logFuel])
      (by norm_num [logFuel]) (6) (by norm_num) (by norm_num))
    (by norm_num [rheInt])

theorem pct_eval_s2 : calculate_percentage 90000 120000 = 75 := by
  unfold calculate_percentage
  rw [decimalCtx_of_pos (by norm_num : (0 : ℚ) < 90000 / 120000)]
  rw [show decimalCtxPos ((90000 : ℚ) / 120000) = (3 : ℚ)/4 from
    decimalCtxPos_eval _ _ (-1)
      (qlogb_eq_of 10 _ (by norm_num) (by norm_num) (by norm_num [logFuel])
        (by norm_num [logFuel]) (-1) (by norm_num) (by norm_num))
      (by norm_num [rheInt])]
  rw [decimalCtx_of_pos (by norm_num : (0 : ℚ) < (3 : ℚ)/4 * 100)]
  rw [show decimalCtxPos (((3 : ℚ)/4) * 100) = 75 from
    decimalCtxPos_eval _ _ (1)
      (qlogb_eq_of 10 _ (by norm_num) (by norm_num) (by norm_num [logFuel])
        (by norm_num [logFuel]) (1) (by norm_num) (by norm_num))
      (by norm_num [rheInt])]
  rw [floatRound_of_pos (by norm_num : (0 : ℚ) < 75)]
  exact floatRoundPos_eval _ _ (6)
    (qlogb_eq_of 2 _ (by norm_num) (by norm_num) (by norm_num [logFuel])
      (by norm_num [logFuel]) (6) (by norm_num) (by norm_num))
    (by norm_num [rheInt])

theorem pct_eval_s3 : calculate_percentage 96000 120000 = 80 := by
  unfold calculate_percentage
  rw [decimalCtx_of_pos (by norm_num : (0 : ℚ) < 96000 / 120000)]
  rw [show decimalCtxPos ((96000 : ℚ) / 120000) = (4 : ℚ)/5 from
    decimalCtxPos_eval _ _ (-1)
      (qlogb_eq_of 10 _ (by norm_num) (by norm_num) (by norm_num [logFuel])
        (by norm_num [logFuel]) (-1) (by norm_num) (by norm_num))
      (by norm_num [rheInt])]
  rw [decimalCtx_of_pos (by norm_num : (0 : ℚ) < (4 : ℚ)/5 * 100)]
  rw [show decimalCtxPos (((4 : ℚ)/5) * 100) = 80 from
    decimalCtxPos_eval _ _ (1)
      (qlogb_eq_of 10 _ (by norm_num) (by norm_num) (by norm_num [logFuel])
        (by norm_num [logFuel]) (1) (by norm_num) (by norm_num))
      (by norm_num [rheInt])]
  rw [floatRound_of_pos (by norm_num : (0 : ℚ) < 80)]
  exact floatRoundPos_eval _ _ (6)
    (qlogb_eq_of 2 _ (by norm_num) (by norm_num) (by norm_num [logFuel])
      (by norm_num [logFuel]) (6) (by norm_num) (by norm_num))
    (by norm_num [rheInt])

theorem pct_eval_boundary : calculate_percentage (9599999/100) 120000 = 5629498947806919/70368744177664 := by
  unfold calculate_percentage
  rw [decimalCtx_of_pos (by norm_num : (0 : ℚ) < (9599999/100) / 120000)]
  rw [show decimalCtxPos (((9599999/100) : ℚ) / 120000) = (7999999166666666666666666667 : ℚ)/10000000000000000000000000000 from
    decimalCtxPos_eval _ _ (-1)
      (qlogb_eq_of 10 _ (by norm_num) (by norm_num) (by norm_num [logFuel])
        (by norm_num [logFuel]) (-1) (by norm_num) (by norm_num))
      (by norm_num [rheInt])]
  rw [decimalCtx_of_pos (by norm_num : (0 : ℚ) < (7999999166666666666666666667 : ℚ)/10000000000000000000000000000 * 100)]
  rw [show decimalCtxPos (((7999999166666666666666666667 : ℚ)/10000000000000000000000000000) * 100) = (7999999166666666666666666667 : ℚ)/100000000000000000000000000 from
    decimalCtxPos_eval _ _ (1)
      (qlogb_eq_of 10 _ (by norm_num) (by norm_num) (by norm_num [logFuel])
        (by norm_num [logFuel]) (1) (by norm_num) (by norm_num))
      (by norm_num [rheInt])]
  rw [floatRound_of_pos (by norm_num : (0 : ℚ) < (7999999166666666666666666667 : ℚ)/100000000000000000000000000)]
  exact floatRoundPos_eval _ _ (6)
    (qlogb_eq_of 2 _ (by norm_num) (by norm_num) (by norm_num [logFuel])
      (by norm_num [logFuel]) (6) (by norm_num) (by norm_num))
    (by norm_num [rheInt])

theorem pct_eval_large : calculate_percentage 8000000000000003 10000000000000004 = 80 := by
  unfold calculate_percentage
  rw [decimalCtx_of_pos (by norm_num : (0 : ℚ) < 8000000000000003 / 10000000000000004)]
  rw [show decimalCtxPos ((8000000000000003 : ℚ) / 10000000000000004) = (39999999999999999 : ℚ)/50000000000000000 from
    decimalCtxPos_eval _ _ (-1)
      (qlogb_eq_of 10 _ (by norm_num) (by norm_num) (by norm_num [logFuel])
        (by norm_num [logFuel]) (-1) (by norm_num) (by norm_num))
      (by norm_num [rheInt])]
  rw [decimalCtx_of_pos (by norm_num : (0 : ℚ) < (39999999999999999 : ℚ)/50000000000000000 * 100)]
  rw [show decimalCtxPos (((39999999999999999 : ℚ)/50000000000000000) * 100) = (39999999999999999 : ℚ)/500000000000000 from
    decimalCtxPos_eval _ _ (1)
      (qlogb_eq_of 10 _ (by norm_num) (by norm_num) (by norm_num [logFuel])
        (by norm_num [logFuel]) (1) (by norm_num) (by norm_num))
      (by norm_num [rheInt])]
  rw [floatRound_of_pos (by norm_num : (0 : ℚ) < (39999999999999999 : ℚ)/500000000000000)]
  exact floatRoundPos_eval _ _ (6)
    (qlogb_eq_of 2 _ (by norm_num) (by norm_num) (by norm_num [logFuel])
      (by norm_num [logFuel]) (6) (by norm_num) (by norm_num))
    (by norm_num [rheInt])

theorem pct_eval_seven : calculate_percentage 7 100 = 7 := by
  unfold calculate_percentage
  rw [decimalCtx_of_pos (by norm_num : (0 : ℚ) < 7 / 100)]
  rw [show decimalCtxPos ((7 : ℚ) / 100) = (7 : ℚ)/100 from
    decimalCtxPos_eval _ _ (-2)
      (qlogb_eq_of 10 _ (by norm_num) (by norm_num) (by norm_num [logFuel])
        (by norm_num [logFuel]) (-2) (by norm_num) (by norm_num))
      (by norm_num [rheInt])]
  rw [decimalCtx_of_pos (by norm_num : (0 : ℚ) < (7 : ℚ)/100 * 100)]
  rw [show decimalCtxPos (((7 : ℚ)/100) * 100) = 7 from
    decimalCtxPos_eval _ _ (0)
      (qlogb_eq_of 10 _ (by norm_num) (by norm_num) (by norm_num [logFuel])
        (by norm_num [logFuel]) (0) (by norm_num) (by norm_num))
      (by norm_num [rheInt])]
  rw [floatRound_of_pos (by norm_num : (0 : ℚ) < 7)]
  exact floatRoundPos_eval _ _ (2)
    (qlogb_eq_of 2 _ (by norm_num) (by norm_num) (by norm_num [logFuel])
      (by norm_num [logFuel]) (2) (by norm_num) (by norm_num))
    (by norm_num [rheInt])
theorem fl_eval75 : floatRound (75 : ℚ) = 75 := by
  rw [floatRound_of_pos (by norm_num)]
  exact floatRoundPos_eval _ _ (6)
    (qlogb_eq_of 2 _ (by norm_num) (by norm_num) (by norm_num [logFuel])
      (by norm_num [logFuel]) (6) (by norm_num) (by norm_num))
    (by norm_num [rheInt])

theorem fl_eval80 : floatRound (80 : ℚ) = 80 := by
  rw [floatRound_of_pos (by norm_num)]
  exact floatRoundPos_eval _ _ (6)
    (qlogb_eq_of 2 _ (by norm_num) (by norm_num) (by norm_num [logFuel])
      (by norm_num [logFuel]) (6) (by norm_num) (by norm_num))
    (by norm_num [rheInt])

theorem fl_eval7 : floatRound (7 : ℚ) = 7 := by
  rw [floatRound_of_pos (by norm_num)]
  exact floatRoundPos_eval _ _ (2)
    (qlogb_eq_of 2 _ (by norm_num) (by norm_num) (by norm_num [logFuel])
      (by norm_num [logFuel]) (2) (by norm_num) (by norm_num))
    (by norm_num [rheInt])

theorem fl_eval100 : floatRound (100 : ℚ) = 100 := by
  rw [floatRound_of_pos (by norm_num)]
  exact floatRoundPos_eval _ _ (6)
    (qlogb_eq_of 2 _ (by norm_num) (by norm_num) (by norm_num [logFuel])
      (by norm_num [logFuel]) (6) (by norm_num) (by norm_num))
    (by norm_num [rheInt])

theorem pct_eval_self (s : ℚ) (hs : s ≠ 0) : calculate_percentage s s = 100 := by
  unfold calculate_percentage
  rw [div_self hs]
  rw [show decimalCtx (1 : ℚ) = 1 from by
    rw [decimalCtx_of_pos (by norm_num : (0 : ℚ) < 1)]
    exact decimalCtxPos_eval _ _ (0)
      (qlogb_eq_of 10 _ (by norm_num) (by norm_num) (by norm_num [logFuel])
        (by norm_num [logFuel]) (0) (by norm_num) (by norm_num))
      (by norm_num [rheInt])]
  rw [one_mul]
  rw [show decimalCtx (100 : ℚ) = 100 from by
    rw [decimalCtx_of_pos (by norm_num : (0 : ℚ) < 100)]
    exact decimalCtxPos_eval _ _ (2)
      (qlogb_eq_of 10 _ (by norm_num) (by norm_num) (by norm_num [logFuel])
        (by norm_num [logFuel]) (2) (by norm_num) (by norm_num))
      (by norm_num [rheInt])]
  exact fl_eval100

theorem amt_eval_s1 : calculate_commission_amount commission_service 100000 true = 5000 := by
  rw [amount_of_eligible]
  rw [show commission_service.commission_rate = (5 : ℚ)/100 from rfl]
  rw [show (100000 : ℚ) * ((5 : ℚ)/100) = 5000 from by norm_num]
  rw [decimalCtx_of_pos (by norm_num : (0 : ℚ) < 5000)]
  rw [show decimalCtxPos (5000 : ℚ) = 5000 from
    decimalCtxPos_eval _ _ (3)
      (qlogb_eq_of 10 _ (by norm_num) (by norm_num) (by norm_num [logFuel])
        (by norm_num [logFuel]) (3) (by norm_num) (by norm_num))
      (by norm_num [rheInt])]
  rw [show quantize2HalfUp (5000 : ℚ) = 5000 from by
    norm_num [quantize2HalfUp, rhalfUpInt]]
  rw [floatRound_of_pos (by norm_num)]
  exact floatRoundPos_eval _ _ (12)
    (qlogb_eq_of 2 _ (by norm_num) (by norm_num) (by norm_num [logFuel])
      (by norm_num [logFuel]) (12) (by norm_num) (by norm_num))
    (by norm_num [rheInt])

theorem amt_eval_s3 : calculate_commission_amount commission_service 96000 true = 4800 := by
  rw [amount_of_eligible]
  rw [show commission_service.commission_rate = (5 : ℚ)/100 from rfl]
  rw [show (96000 : ℚ) * ((5 : ℚ)/100) = 4800 from by norm_num]
  rw [decimalCtx_of_pos (by norm_num : (0 : ℚ) < 4800)]
  rw [show decimalCtxPos (4800 : ℚ) = 4800 from
    decimalCtxPos_eval _ _ (3)
      (qlogb_eq_of 10 _ (by norm_num) (by norm_num) (by norm_num [logFuel])
        (by norm_num [logFuel]) (3) (by norm_num) (by norm_num))
      (by norm_num [rheInt])]
  rw [show quantize2HalfUp (4800 : ℚ) = 4800 from by
    norm_num [quantize2HalfUp, rhalfUpInt]]
  rw [floatRound_of_pos (by norm_num)]
  exact floatRoundPos_eval _ _ (12)
    (qlogb_eq_of 2 _ (by norm_num) (by norm_num) (by norm_num [logFuel])
      (by norm_num [logFuel]) (12) (by norm_num) (by norm_num))
    (by norm_num [rheInt])

theorem amt_eval_large : calculate_commission_amount commission_service 8000000000000003 true = (3200000000000001 : ℚ)/8 := by
  rw [amount_of_eligible]
  rw [show commission_service.commission_rate = (5 : ℚ)/100 from rfl]
  rw [show (8000000000000003 : ℚ) * ((5 : ℚ)/100) = (8000000000000003 : ℚ)/20 from by norm_num]
  rw [decimalCtx_of_pos (by norm_num : (0 : ℚ) < (8000000000000003 : ℚ)/20)]
  rw [show decimalCtxPos ((8000000000000003 : ℚ)/20 : ℚ) = (8000000000000003 : ℚ)/20 from
    decimalCtxPos_eval _ _ (14)
      (qlogb_eq_of 10 _ (by norm_num) (by norm_num) (by norm_num [logFuel])
        (by norm_num [logFuel]) (14) (by norm_num) (by norm_num))
      (by norm_num [rheInt])]
  rw [show quantize2HalfUp ((8000000000000003 : ℚ)/20 : ℚ) = (8000000000000003 : ℚ)/20 from by
    norm_num [quantize2HalfUp, rhalfUpInt]]
  rw [floatRound_of_pos (by norm_num)]
  exact floatRoundPos_eval _ _ (48)
    (qlogb_eq_of 2 _ (by norm_num) (by norm_num) (by norm_num [logFuel])
      (by norm_num [logFuel]) (48) (by norm_num) (by norm_num))
    (by norm_num [rheInt])

theorem amt_eval_cx : calculate_commission_amount
    ⟨(45205882352941185 : ℚ)/100000000000000000, (80 : ℚ)/100⟩
    ((99999999999983 : ℚ)/100) true = (7406531764704707 : ℚ)/16384 := by
  rw [amount_of_eligible]
  rw [show (⟨(45205882352941185 : ℚ)/100000000000000000, (80 : ℚ)/100⟩ :
      CommissionCalculatorService).commission_rate =
    (45205882352941185 : ℚ)/100000000000000000 from rfl]
  rw [show (99999999999983 : ℚ)/100 * ((45205882352941185 : ℚ)/100000000000000000) =
    (904117647058669999999999999971 : ℚ)/2000000000000000000 from by norm_num]
  rw [decimalCtx_of_pos (by norm_num : (0 : ℚ) <
    (904117647058669999999999999971 : ℚ)/2000000000000000000)]
  rw [show decimalCtxPos ((904117647058669999999999999971 : ℚ)/2000000000000000000) =
      (90411764705867 : ℚ)/200 from
    decimalCtxPos_eval _ _ (11)
      (qlogb_eq_of 10 _ (by norm_num) (by norm_num) (by norm_num [logFuel])
        (by norm_num [logFuel]) (11) (by norm_num) (by norm_num))
      (by norm_num [rheInt])]
  rw [show quantize2HalfUp ((90411764705867 : ℚ)/200) = (22602941176467 : ℚ)/50 from by
    norm_num [quantize2HalfUp, rhalfUpInt]]
  rw [floatRound_of_pos (by norm_num)]
  exact floatRoundPos_eval _ _ (38)
    (qlogb_eq_of 2 _ (by norm_num) (by norm_num) (by norm_num [logFuel])
      (by norm_num [logFuel]) (38) (by norm_num) (by norm_num))
    (by norm_num [rheInt])

theorem exact_quantize_eval_cx :
    floatRound (quantize2HalfUp ((99999999999983 : ℚ)/100 *
        ((45205882352941185 : ℚ)/100000000000000000))) =
      (7406531764704543 : ℚ)/16384 := by
  rw [show (99999999999983 : ℚ)/100 * ((45205882352941185 : ℚ)/100000000000000000) =
    (904117647058669999999999999971 : ℚ)/2000000000000000000 from by norm_num]
  rw [show quantize2HalfUp ((904117647058669999999999999971 : ℚ)/2000000000000000000) =
      (45205882352933 : ℚ)/100 from by
    norm_num [quantize2HalfUp, rhalfUpInt]]
  rw [floatRound_of_pos (by norm_num)]
  exact floatRoundPos_eval _ _ (38)
    (qlogb_eq_of 2 _ (by norm_num) (by norm_num) (by norm_num [logFuel])
      (by norm_num [logFuel]) (38) (by norm_num) (by norm_num))
    (by norm_num [rheInt])

theorem is_eligible_default_false (p : ℚ) (h : p < 80) :
    is_eligible commission_service p = false := by
  cases hb : is_eligible commission_service p
  · rfl
  · have h80 := (is_eligible_default p).mp hb
    linarith

theorem calc_eval_s1 : calculate_commission commission_service 100000 120000 =
    Except.ok ⟨5000, true, floatRound ((8333 : ℚ)/100)⟩ := by
  rw [calculate_commission_ok _ _ _ (validate_inputs_ok _ _ (by norm_num) (by norm_num))]
  rw [pct_eval_s1]
  rw [show is_eligible commission_service ((5864062014805333 : ℚ)/70368744177664) = true from
    (is_eligible_default _).mpr (by norm_num)]
  rw [amt_eval_s1]
  rw [show pyRound2 ((5864062014805333 : ℚ)/70368744177664) = (8333 : ℚ)/100 from by
    norm_num [pyRound2, rheInt]]

theorem calc_eval_s2 : calculate_commission commission_service 90000 120000 =
    Except.ok ⟨0, false, 75⟩ := by
  rw [calculate_commission_ok _ _ _ (validate_inputs_ok _ _ (by norm_num) (by norm_num))]
  rw [pct_eval_s2]
  rw [show is_eligible commission_service (75 : ℚ) = false from
    is_eligible_default_false _ (by norm_num)]
  rw [amount_of_ineligible]
  rw [show pyRound2 (75 : ℚ) = 75 from by norm_num [pyRound2, rheInt]]
  rw [fl_eval75]

theorem calc_eval_s3 : calculate_commission commission_service 96000 120000 =
    Except.ok ⟨4800, true, 80⟩ := by
  rw [calculate_commission_ok _ _ _ (validate_inputs_ok _ _ (by norm_num) (by norm_num))]
  rw [pct_eval_s3]
  rw [show is_eligible commission_service (80 : ℚ) = true from
    (is_eligible_default _).mpr (by norm_num)]
  rw [amt_eval_s3]
  rw [show pyRound2 (80 : ℚ) = 80 from by norm_num [pyRound2, rheInt]]
  rw [fl_eval80]

theorem calc_eval_boundary : calculate_commission commission_service (9599999/100) 120000 =
    Except.ok ⟨0, false, 80⟩ := by
  rw [calculate_commission_ok _ _ _ (validate_inputs_ok _ _ (by norm_num) (by norm_num))]
  rw [pct_eval_boundary]
  rw [show is_eligible commission_service ((5629498947806919 : ℚ)/70368744177664) = false from
    is_eligible_default_false _ (by norm_num)]
  rw [amount_of_ineligible]
  rw [show pyRound2 ((5629498947806919 : ℚ)/70368744177664) = 80 from by
    norm_num [pyRound2, rheInt]]
  rw [fl_eval80]

theorem calc_eval_large :
    calculate_commission commission_service 8000000000000003 10000000000000004 =
      Except.ok ⟨(3200000000000001 : ℚ)/8, true, 80⟩ := by
  rw [calculate_commission_ok _ _ _ (validate_inputs_ok _ _ (by norm_num) (by norm_num))]
  rw [pct_eval_large]
  rw [show is_eligible commission_service (80 : ℚ) = true from
    (is_eligible_default _).mpr (by norm_num)]
  rw [amt_eval_large]
  rw [show pyRound2 (80 : ℚ) = 80 from by norm_num [pyRound2, rheInt]]
  rw [fl_eval80]

theorem calc_eval_seven :
    calculate_commission ⟨(5 : ℚ)/100, (7 : ℚ)/100⟩ 7 100 =
      Except.ok ⟨0, false, 7⟩ := by
  rw [calculate_commission_ok _ _ _ (validate_inputs_ok _ _ (by norm_num) (by norm_num))]
  rw [pct_eval_seven]
  rw [show is_eligible ⟨(5 : ℚ)/100, (7 : ℚ)/100⟩ (7 : ℚ) = false from by
    with_unfolding_all decide]
  rw [amount_of_ineligible]
  rw [show pyRound2 (7 : ℚ) = 7 from by norm_num [pyRound2, rheInt]]
  rw [fl_eval7]

theorem calc_eval_cx :
    calculate_commission ⟨(45205882352941185 : ℚ)/100000000000000000, (80 : ℚ)/100⟩
        ((99999999999983 : ℚ)/100) ((99999999999983 : ℚ)/100) =
      Except.ok ⟨(7406531764704707 : ℚ)/16384, true, 100⟩ := by
  rw [calculate_commission_ok _ _ _ (validate_inputs_ok _ _ (by norm_num) (by norm_num))]
  rw [pct_eval_self _ (by norm_num)]
  rw [show is_eligible ⟨(45205882352941185 : ℚ)/100000000000000000, (80 : ℚ)/100⟩
      (100 : ℚ) = true from by
    rw [is_eligible_true_iff]
    rw [show (⟨(45205882352941185 : ℚ)/100000000000000000, (80 : ℚ)/100⟩ :
        CommissionCalculatorService).eligibility_threshold = (80 : ℚ)/100 from rfl]
    rw [default_threshold_eval]
    norm_num]
  rw [amt_eval_cx]
  rw [show pyRound2 (100 : ℚ) = 100 from by norm_num [pyRound2, rheInt]]
  rw [fl_eval100]

/-! ## Characterization of engine construction -/

theorem init_ok (r θ : ℚ) (h1 : 0 ≤ r) (h2 : r ≤ 1) (h3 : 0 < θ) (h4 : θ ≤ 1) :
    CommissionCalculatorService.init r θ = Except.ok ⟨r, θ⟩ := by
  unfold CommissionCalculatorService.init validate_configuration
  rw [if_neg (not_not_intro ⟨h1, h2⟩), if_neg (not_not_intro ⟨h3, h4⟩)]

theorem init_err_rate (r θ : ℚ) (h : ¬ (0 ≤ r ∧ r ≤ 1)) :
    CommissionCalculatorService.init r θ = Except.error
      (CalcError.businessRuleViolation "commission_rate must be between 0 and 1"
        [("commission_rate", r)]) := by
  unfold CommissionCalculatorService.init validate_configuration
  rw [if_pos h]

theorem init_err_threshold (r θ : ℚ) (h1 : 0 ≤ r ∧ r ≤ 1) (h : ¬ (0 < θ ∧ θ ≤ 1)) :
    CommissionCalculatorService.init r θ = Except.error
      (CalcError.businessRuleViolation "eligibility_threshold must be between 0 and 1"
        [("eligibility_threshold", θ)]) := by
  unfold CommissionCalculatorService.init validate_configuration
  rw [if_neg (not_not_intro h1), if_pos h]

/-! ## The claims -/

/-- C1, counterexample.  The claim states that for every constructed engine
with threshold `θ` the `eligible` flag is true exactly when
`(sales/target) * 100 >= θ * 100`.  The engine constructed with
`θ = 0.07` refutes it at `sales = 7`, `target = 100`: the exact
achievement percentage is exactly `7 = θ * 100`, yet the code computes the
threshold percentage as `float(0.07) * 100 = 7.000000000000001 > 7` and
reports `eligible = false` (commission 0).  Mirrors the behaviour of the
Python engine at these inputs. -/
theorem c1_boundary_counterexample :
    CommissionCalculatorService.init ((5 : ℚ)/100) ((7 : ℚ)/100) =
      Except.ok ⟨(5 : ℚ)/100, (7 : ℚ)/100⟩ ∧
    calculate_commission ⟨(5 : ℚ)/100, (7 : ℚ)/100⟩ 7 100 =
      Except.ok ⟨0, false, 7⟩ ∧
    ((7 : ℚ)/100) * 100 ≤ ((7 : ℚ) / (100 : ℚ)) * 100 :=
  ⟨init_ok _ _ (by norm_num) (by norm_num) (by norm_num) (by norm_num),
    calc_eval_seven, by norm_num⟩

/-- C1, amended.  For the default engine (threshold `0.80`) and inputs at
currency precision (whole cents, up to `10^12`), eligibility is a closed
lower bound at the threshold: the `eligible` flag is true exactly when the
exact percentage `(sales/target) * 100` is at least `80`, i.e. when
`4 * target <= 5 * sales`.  (For other thresholds, e.g. `0.07`, or inputs
of finer granularity, the binary64 conversions inside `_calculate_percentage`
and `_is_eligible` can flip the decision at the boundary.) -/
theorem c1_eligibility_closed_bound_currency (k m : ℕ) (hm : 1 ≤ m)
    (hk : k ≤ 10 ^ 14) (hm2 : m ≤ 10 ^ 14) :
    ∃ r : CommissionResult,
      calculate_commission commission_service ((k : ℚ)/100) ((m : ℚ)/100) =
        Except.ok r ∧
      (r.eligible = true ↔ 4 * (m : ℚ) ≤ 5 * (k : ℚ)) := by
  have hm0 : 0 < m := hm
  have hmq : (0 : ℚ) < (m : ℚ) := by exact_mod_cast hm0
  have hs : (0 : ℚ) ≤ (k : ℚ)/100 := by positivity
  have ht : (0 : ℚ) < (m : ℚ)/100 := by positivity
  refine ⟨_, calculate_commission_ok _ _ _ (validate_inputs_ok _ _ hs ht), ?_⟩
  show is_eligible commission_service
      (calculate_percentage ((k : ℚ)/100) ((m : ℚ)/100)) = true ↔ _
  rw [is_eligible_default]
  exact percentage_ge_80_iff k m hm hk hm2

/-- Witness for the amended C1 at sales 96000.00, target 120000.00. -/
theorem c1_eligibility_closed_bound_currency_witness :
    ∃ r : CommissionResult,
      calculate_commission commission_service
          (((9600000 : ℕ) : ℚ)/100) (((12000000 : ℕ) : ℚ)/100) =
        Except.ok r ∧
      (r.eligible = true ↔
        4 * ((12000000 : ℕ) : ℚ) ≤ 5 * ((9600000 : ℕ) : ℚ)) :=
  c1_eligibility_closed_bound_currency 9600000 12000000
    (by decide) (by decide) (by decide)

/-- C2, counterexample.  The claim states that for every valid input the
`eligible` flag equals the exact rational comparison
`(sales/target) * 100 >= threshold * 100` with no intermediate binary-float
rounding affecting the result.  With the default engine and the valid
inputs `sales = 8000000000000003`, `target = 10000000000000004` the exact
percentage is `79.99999999999999800...` (< 80), but `float(...)` inside
`_calculate_percentage` rounds it to exactly `80.0`, so the code reports
`eligible = true` and pays a commission.  Mirrors the Python engine. -/
theorem c2_exact_comparison_counterexample :
    calculate_commission commission_service 8000000000000003 10000000000000004 =
      Except.ok ⟨(3200000000000001 : ℚ)/8, true, 80⟩ ∧
    (8000000000000003 : ℚ) / 10000000000000004 * 100 < (80 : ℚ)/100 * 100 :=
  ⟨calc_eval_large, by norm_num⟩

/-- C2, amended.  The comparison inside `_is_eligible` is a decimal
comparison, but it is applied to the binary64 conversion of the context-
rounded percentage.  For inputs at currency precision below `10^12` and
the default threshold `0.80` these conversions never affect the outcome:
the `eligible` flag equals the exact rational comparison
`threshold * 100 <= (sales/target) * 100`.  Outside that domain the
float conversion can affect the result (see the counterexample). -/
theorem c2_exact_comparison_currency (k m : ℕ) (hm : 1 ≤ m)
    (hk : k ≤ 10 ^ 14) (hm2 : m ≤ 10 ^ 14) :
    (is_eligible commission_service
        (calculate_percentage ((k : ℚ)/100) ((m : ℚ)/100)) = true ↔
      (80 : ℚ)/100 * 100 ≤ ((k : ℚ)/100) / ((m : ℚ)/100) * 100) := by
  have hm0 : 0 < m := hm
  have hmq : (0 : ℚ) < (m : ℚ) := by exact_mod_cast hm0
  rw [is_eligible_default]
  rw [percentage_ge_80_iff k m hm hk hm2]
  rw [show ((k : ℚ)/100) / ((m : ℚ)/100) = (k : ℚ) / (m : ℚ) from by field_simp]
  rw [show (80 : ℚ)/100 * 100 = 80 from by norm_num]
  rw [div_mul_eq_mul_div, le_div_iff₀ hmq]
  constructor
  · intro h; linarith
  · intro h; linarith

/-- Witness for the amended C2 at sales 95999.99, target 120000.00. -/
theorem c2_exact_comparison_currency_witness :
    (is_eligible commission_service
        (calculate_percentage (((9599999 : ℕ) : ℚ)/100) (((12000000 : ℕ) : ℚ)/100)) = true ↔
      (80 : ℚ)/100 * 100 ≤
        (((9599999 : ℕ) : ℚ)/100) / (((12000000 : ℕ) : ℚ)/100) * 100) :=
  c2_exact_comparison_currency 9599999 12000000 (by decide) (by decide) (by decide)

/-- C3.  Display and decision are independent: at sales 95999.99 and
target 120000.00 the engine returns `percentage_of_target = 80.00` (the
exact percentage is just below 80 but rounds up for display) while
`eligible = false` and `commission = 0.00`; the second conjunct records
that the exact percentage really is below 80, so the rounded display value
did not feed the decision. -/
theorem c3_display_decision_independence :
    calculate_commission commission_service (9599999/100) 120000 =
      Except.ok ⟨0, false, 80⟩ ∧
    ((9599999 : ℚ)/100) / 120000 * 100 < 80 :=
  ⟨calc_eval_boundary, by norm_num⟩

/-- C10.  On the validated boundary domain (both amounts in whole cents,
below `10^12`) the double rounding inside `_calculate_percentage`
(decimal context at 28 digits, then binary64) never changes the
eligibility comparison against the default threshold: the computed
percentage is at least 80 exactly when the exact rational percentage is. -/
theorem c10_double_rounding_harmless (k m : ℕ) (hm : 1 ≤ m)
    (hk : k ≤ 10 ^ 14) (hm2 : m ≤ 10 ^ 14) :
    (80 ≤ calculate_percentage ((k : ℚ)/100) ((m : ℚ)/100) ↔
      80 ≤ (k : ℚ) / (m : ℚ) * 100) := by
  have hm0 : 0 < m := hm
  have hmq : (0 : ℚ) < (m : ℚ) := by exact_mod_cast hm0
  rw [percentage_ge_80_iff k m hm hk hm2]
  rw [div_mul_eq_mul_div, le_div_iff₀ hmq]
  constructor
  · intro h; linarith
  · intro h; linarith

/-- Witness for C10 at sales 80000.00, target 100000.00. -/
theorem c10_double_rounding_harmless_witness :
    (80 ≤ calculate_percentage (((8000000 : ℕ) : ℚ)/100) (((10000000 : ℕ) : ℚ)/100) ↔
      80 ≤ ((8000000 : ℕ) : ℚ) / ((10000000 : ℕ) : ℚ) * 100) :=
  c10_double_rounding_harmless 8000000 10000000 (by decide) (by decide) (by decide)

/-- C4, counterexample.  The claim states that for every engine rate in
`[0,1]` an eligible result's commission equals `sales * rate` rounded to
2 decimal places half-up as computed in exact decimal arithmetic.  The
engine rate `0.45205882352941185` (the exact 17-significant-digit decimal
reading of a binary64 value, so a configuration the engine can receive)
with the 2-decimal input `sales = target = 999999999999.83` refutes it:
the exact product is `452058823529.33499999999999998`, which quantizes
half-up to `452058823529.33`, but the 28-significant-digit context
rounding inside `_calculate_commission_amount` first lifts the 30-digit
product to exactly `452058823529.335`, whose half-up quantization is
`452058823529.34` — the engine pays one cent more than the exact value.
Mirrors the Python engine at these inputs. -/
theorem c4_linearity_counterexample :
    CommissionCalculatorService.init
        ((45205882352941185 : ℚ)/100000000000000000) ((80 : ℚ)/100) =
      Except.ok ⟨(45205882352941185 : ℚ)/100000000000000000, (80 : ℚ)/100⟩ ∧
    calculate_commission ⟨(45205882352941185 : ℚ)/100000000000000000, (80 : ℚ)/100⟩
        ((99999999999983 : ℚ)/100) ((99999999999983 : ℚ)/100) =
      Except.ok ⟨(7406531764704707 : ℚ)/16384, true, 100⟩ ∧
    floatRound (quantize2HalfUp ((99999999999983 : ℚ)/100 *
        ((45205882352941185 : ℚ)/100000000000000000))) =
      (7406531764704543 : ℚ)/16384 ∧
    ((7406531764704707 : ℚ)/16384 ≠ (7406531764704543 : ℚ)/16384) :=
  ⟨init_ok _ _ (by norm_num) (by norm_num) (by norm_num) (by norm_num),
    calc_eval_cx, exact_quantize_eval_cx, by norm_num⟩

/-- C4, amended.  Linearity above threshold holds for every engine whose
rate has at most 13 decimal digits (`j/10^q` with `q ≤ 13`, covering e.g.
0.05, 0.045, 0.001 and every whole-hundredth rate) and all currency
inputs (whole cents, sales up to `10^12`): whenever the returned result
is eligible its commission equals `sales * rate` rounded to 2 decimal
places half-up — `floatRound` being the reading of that decimal back as
the returned binary64 `float`.  The 28-digit context rounding inside
`_calculate_commission_amount` is the identity here because
`sales * rate` has at most 27 significant digits; a rate of finer
granularity can push the product past 28 digits and shift the rounded
cent (see the counterexample). -/
theorem c4_linearity_above_threshold (θ : ℚ) (j q k m : ℕ)
    (hq : q ≤ 13) (hj : j ≤ 10 ^ q) (hk : k ≤ 10 ^ 14) (hm : 1 ≤ m) :
    ∃ r : CommissionResult,
      calculate_commission ⟨(j : ℚ)/10 ^ q, θ⟩ ((k : ℚ)/100) ((m : ℚ)/100) =
        Except.ok r ∧
      (r.eligible = true →
        r.commission = floatRound (quantize2HalfUp ((k : ℚ)/100 * ((j : ℚ)/10 ^ q)))) := by
  have hm0 : 0 < m := hm
  have hmq : (0 : ℚ) < (m : ℚ) := by exact_mod_cast hm0
  have hs : (0 : ℚ) ≤ (k : ℚ)/100 := by positivity
  have ht : (0 : ℚ) < (m : ℚ)/100 := by positivity
  refine ⟨_, calculate_commission_ok _ _ _ (validate_inputs_ok _ _ hs ht), ?_⟩
  intro helig
  show calculate_commission_amount ⟨(j : ℚ)/10 ^ q, θ⟩ ((k : ℚ)/100)
      (is_eligible ⟨(j : ℚ)/10 ^ q, θ⟩
        (calculate_percentage ((k : ℚ)/100) ((m : ℚ)/100))) = _
  have helig2 : is_eligible ⟨(j : ℚ)/10 ^ q, θ⟩
      (calculate_percentage ((k : ℚ)/100) ((m : ℚ)/100)) = true := helig
  rw [helig2, amount_of_eligible]
  rw [show (⟨(j : ℚ)/10 ^ q, θ⟩ : CommissionCalculatorService).commission_rate =
    (j : ℚ)/10 ^ q from rfl]
  rw [show (k : ℚ)/100 * ((j : ℚ)/10 ^ q) = ((k * j : ℕ) : ℚ) / 10 ^ (q + 2) from by
    push_cast
    rw [pow_add]
    ring]
  rw [decimalCtx_fixed (k * j) (q + 2) ?_ (by omega)]
  have h1 : k * j ≤ 10 ^ 14 * 10 ^ q := Nat.mul_le_mul hk hj
  have h2 : (10 : ℕ) ^ q ≤ 10 ^ 13 := Nat.pow_le_pow_right (by norm_num) hq
  have h3 : (10 : ℕ) ^ 14 * 10 ^ q ≤ 10 ^ 14 * 10 ^ 13 :=
    Nat.mul_le_mul_left (10 ^ 14) h2
  have h4 : (10 : ℕ) ^ 14 * 10 ^ 13 < 10 ^ 28 := by norm_num
  exact lt_of_le_of_lt (le_trans h1 h3) h4

/-- Witness for the amended C4 at rate 0.045 (45/10^3), threshold 0.80,
sales 96000.00, target 120000.00 (an eligible input). -/
theorem c4_linearity_above_threshold_witness :
    ∃ r : CommissionResult,
      calculate_commission ⟨((45 : ℕ) : ℚ)/10 ^ (3 : ℕ), (80 : ℚ)/100⟩
          (((9600000 : ℕ) : ℚ)/100) (((12000000 : ℕ) : ℚ)/100) =
        Except.ok r ∧
      (r.eligible = true →
        r.commission = floatRound (quantize2HalfUp
          (((9600000 : ℕ) : ℚ)/100 * (((45 : ℕ) : ℚ)/10 ^ (3 : ℕ))))) :=
  c4_linearity_above_threshold ((80 : ℚ)/100) 45 3 9600000 12000000
    (by decide) (by decide) (by decide) (by decide)

/-- C5.  Zero below threshold: for every valid input (non-negative sales,
positive target) on any engine, if the returned result is ineligible then
its commission is exactly 0, regardless of the magnitude of the sales
amount (`_calculate_commission_amount` returns `0.0` before touching the
sales figure). -/
theorem c5_zero_below_threshold (svc : CommissionCalculatorService) (s t : ℚ)
    (hs : 0 ≤ s) (ht : 0 < t) :
    ∃ r : CommissionResult,
      calculate_commission svc s t = Except.ok r ∧
      (r.eligible = false → r.commission = 0) := by
  refine ⟨_, calculate_commission_ok _ _ _ (validate_inputs_ok _ _ hs ht), ?_⟩
  intro h
  show calculate_commission_amount svc s
      (is_eligible svc (calculate_percentage s t)) = 0
  have h2 : is_eligible svc (calculate_percentage s t) = false := h
  rw [h2, amount_of_ineligible]

/-- Witness for C5 at sales 90000.00, target 120000.00 (ineligible). -/
theorem c5_zero_below_threshold_witness :
    ∃ r : CommissionResult,
      calculate_commission commission_service 90000 120000 = Except.ok r ∧
      (r.eligible = false → r.commission = 0) :=
  c5_zero_below_threshold commission_service 90000 120000 (by decide) (by decide)

/-- C6.  Engine construction succeeds (storing both values unchanged)
exactly when `commission_rate` lies in `[0,1]` and
`eligibility_threshold` in `(0,1]`; every construction failure is the
business-rule exception (the spec's `ConfigurationError` kind). -/
theorem c6_construction_validation (rate θ : ℚ) :
    ((∃ svc : CommissionCalculatorService,
        CommissionCalculatorService.init rate θ = Except.ok svc ∧
        svc.commission_rate = rate ∧ svc.eligibility_threshold = θ) ↔
      (0 ≤ rate ∧ rate ≤ 1 ∧ 0 < θ ∧ θ ≤ 1)) ∧
    (∀ e : CalcError,
      CommissionCalculatorService.init rate θ = Except.error e →
      ∃ msg details, e = CalcError.businessRuleViolation msg details) := by
  constructor
  · constructor
    · rintro ⟨svc, hok, hr, hθ⟩
      by_cases h1 : 0 ≤ rate ∧ rate ≤ 1
      · by_cases h2 : 0 < θ ∧ θ ≤ 1
        · exact ⟨h1.1, h1.2, h2.1, h2.2⟩
        · rw [init_err_threshold rate θ h1 h2] at hok
          exact Except.noConfusion hok
      · rw [init_err_rate rate θ h1] at hok
        exact Except.noConfusion hok
    · rintro ⟨h1, h2, h3, h4⟩
      exact ⟨⟨rate, θ⟩, init_ok rate θ h1 h2 h3 h4, rfl, rfl⟩
  · intro e he
    by_cases h1 : 0 ≤ rate ∧ rate ≤ 1
    · by_cases h2 : 0 < θ ∧ θ ≤ 1
      · rw [init_ok rate θ h1.1 h1.2 h2.1 h2.2] at he
        exact Except.noConfusion he
      · rw [init_err_threshold rate θ h1 h2] at he
        simp only [Except.error.injEq] at he
        exact ⟨_, _, he.symm⟩
    · rw [init_err_rate rate θ h1] at he
      simp only [Except.error.injEq] at he
      exact ⟨_, _, he.symm⟩

/-- Witness for C6 at the edge configuration `rate = 0`,
`threshold = 1.0`, which must succeed. -/
theorem c6_construction_validation_witness :
    ∃ svc : CommissionCalculatorService,
      CommissionCalculatorService.init 0 1 = Except.ok svc ∧
      svc.commission_rate = 0 ∧ svc.eligibility_threshold = 1 :=
  ((c6_construction_validation 0 1).1).mpr (by decide)

/-- C7.  Input validation raises-iff: `calculate_commission` fails with
the `ValidationError` carrying message "sales_amount cannot be negative"
and the field/value pair whenever `sales < 0` (this check runs first, so
it wins even when the target is also bad), fails with
"target_amount must be greater than zero" when `sales ≥ 0` and
`target ≤ 0`, and returns a result for every other input. -/
theorem c7_input_validation (svc : CommissionCalculatorService) (s t : ℚ) :
    (s < 0 → calculate_commission svc s t = Except.error
      (CalcError.validationError "sales_amount cannot be negative"
        [("sales_amount", s)])) ∧
    (0 ≤ s → t ≤ 0 → calculate_commission svc s t = Except.error
      (CalcError.validationError "target_amount must be greater than zero"
        [("target_amount", t)])) ∧
    (0 ≤ s → 0 < t → ∃ r, calculate_commission svc s t = Except.ok r) := by
  refine ⟨?_, ?_, ?_⟩
  · intro hs
    exact calculate_commission_err _ _ _ _ (validate_inputs_neg_sales s t hs)
  · intro hs ht
    exact calculate_commission_err _ _ _ _ (validate_inputs_bad_target s t hs ht)
  · intro hs ht
    exact ⟨_, calculate_commission_ok _ _ _ (validate_inputs_ok _ _ hs ht)⟩

/-- Witness for C7: sales -1000 rejected with the sales message, target 0
rejected with the target message, and (90000, 120000) accepted. -/
theorem c7_input_validation_witness :
    calculate_commission commission_service (-1000) 120000 = Except.error
      (CalcError.validationError "sales_amount cannot be negative"
        [("sales_amount", -1000)]) ∧
    calculate_commission commission_service 100000 0 = Except.error
      (CalcError.validationError "target_amount must be greater than zero"
        [("target_amount", 0)]) ∧
    (∃ r, calculate_commission commission_service 90000 120000 = Except.ok r) :=
  ⟨(c7_input_validation commission_service (-1000) 120000).1 (by decide),
   (c7_input_validation commission_service 100000 0).2.1 (by decide) (by decide),
   (c7_input_validation commission_service 90000 120000).2.2 (by decide) (by decide)⟩

/-- C8.  The three concrete scenarios for the default engine
(rate 0.05, threshold 0.80): (100000, 120000) pays 5000.00 with display
percentage 83.33 (the binary64 closest to 83.33), (90000, 120000) pays
nothing at 75.00, (96000, 120000) pays 4800.00 at exactly 80.00. -/
theorem c8_concrete_scenarios :
    calculate_commission commission_service 100000 120000 =
      Except.ok ⟨5000, true, floatRound ((8333 : ℚ)/100)⟩ ∧
    calculate_commission commission_service 90000 120000 =
      Except.ok ⟨0, false, 75⟩ ∧
    calculate_commission commission_service 96000 120000 =
      Except.ok ⟨4800, true, 80⟩ :=
  ⟨calc_eval_s1, calc_eval_s2, calc_eval_s3⟩

/-- C9.  Purity: in the state-explicit rendering of the method, a call
returns the engine unchanged, and a second call with the same inputs on
the returned engine produces an identical result. -/
theorem c9_purity (svc : CommissionCalculatorService) (s t : ℚ) :
    (calculate_commission_st svc s t).2 = svc ∧
    (calculate_commission_st (calculate_commission_st svc s t).2 s t).1 =
      (calculate_commission_st svc s t).1 := by
  have hsnd : (calculate_commission_st svc s t).2 = svc := by
    unfold calculate_commission_st
    rcases hv : validate_inputs s t with e | u <;> rfl
  exact ⟨hsnd, by rw [hsnd]⟩
